import Mathlib

/-!
Verification of the step-sequencing and state-machine logic of the
django-formwizard package, as implemented in formwizard/forms.py.

The embedding is shallow: the wizard methods become pure Lean functions over
an explicit storage state.  Python exceptions are modelled with an explicit
error monad (Except PyExn), and monadic binds are written as explicit
matches for proof transparency.  Django form classes, the storage backend
primitives and template rendering are external collaborators; they are
modelled by their observable behaviour (a validation function per form
class, an association-list state, and a Response value recording what is
rendered).
-/

set_option autoImplicit false

namespace Formwizard

/-- Python exceptions that the wizard code can raise: IndexError from
keys()[0] / keys()[-1] on an empty key list, ValueError from list.index on
a missing element, KeyError from form_list[step], NoFileStorageException
from build_init_kwargs, and AssertionError from the assert statement in
build_init_kwargs. -/
inductive PyExn where
  | indexError
  | valueError
  | keyError
  | noFileStorage
  | assertionError
deriving DecidableEq, Repr

/-- A Django form class, modelled by its observable behaviour: whether the
form constructed with the given data and files dictionaries validates
(form.is_valid(), which is False for an unbound form), and whether the
base fields of the class (after unwrapping a formset to its member form,
as build_init_kwargs does) contain a FileField. -/
structure FormCls (Data : Type) where
  valid : Option Data → Option Data → Bool
  baseFieldsHasFile : Bool

/-- A constructed form instance: the step it was built for together with
the data and files dictionaries it was bound with (None meaning the
argument was absent). -/
structure FormInst (Data : Type) where
  step : String
  data : Option Data
  files : Option Data
deriving DecidableEq, Repr

/-- The persisted wizard state held by the storage backend: the current
step name (None when unset), the per-step stored data and files, and the
extra context mapping.  Modelled from the spec: the storage backend
(session or cookie) is external to the core; it provides get/set of the
current step, get/set of per-step data and files, extra-context get/set
and reset. -/
structure StorageState (Data : Type) where
  currentStep : Option String
  stepData : List (String × Data)
  stepFiles : List (String × Data)
  extraContext : List (String × Data)
deriving DecidableEq, Repr

/-- The parts of an HTTP request the wizard logic reads: request.POST as a
raw data dictionary, request.FILES, the form_prev_step POST field when
present, and the optional extra_context keyword argument of the view. -/
structure Request (Data : Type) where
  postData : Data
  postFiles : Data
  postPrevStep : Option String
  extraContext : Option (List (String × Data))

/-- An entry of the condition_list: either a plain value, used through its
truthiness, or a callable evaluated at request time.  The Python callable
receives (self, request, storage); self is the fixed wizard configuration
the callable closes over, so it is modelled as a function of request and
storage. -/
inductive StepCondition (Data : Type) where
  | plain (b : Bool)
  | callable (f : Request Data → StorageState Data → Bool)

/-- The wizard configuration produced by build_init_kwargs: the ordered
form list (a SortedDict, modelled as an association list with distinct
keys) and the condition list.  initial_list and instance_list only affect
form construction defaults and are absorbed into FormCls.valid. -/
structure FormWizard (Data : Type) where
  formList : List (String × FormCls Data)
  conditionList : List (String × StepCondition Data)

/-- The responses the wizard core can produce: rendering a form (template
rendering itself is an external collaborator), or the done view, recording
the storage state passed to the done callback and the final form list it
receives. -/
inductive Response (Data : Type) where
  | render (form : FormInst Data)
  | done (observed : StorageState Data) (forms : List (FormInst Data))
deriving DecidableEq, Repr

variable {Data : Type}

/-- Dictionary lookup on an association list (first matching key), as in
dict.get(key) / dict[key] of the storage backend state. -/
def alist_get {α : Type} (l : List (String × α)) (k : String) : Option α :=
  match l with
  | [] => none
  | (a, v) :: t => if a = k then some v else alist_get t k

/-- SortedDict-style assignment d[k] = v: if the key exists its value is
updated in place, otherwise the pair is appended at the end of the key
order. -/
def sdInsert {α : Type} (l : List (String × α)) (k : String) (v : α) :
    List (String × α) :=
  match l with
  | [] => [(k, v)]
  | (a, b) :: t => if a = k then (a, v) :: t else (a, b) :: sdInsert t k v

/-- index of the first occurrence of an element in a list, as Python
list.index, None when the element is absent (a ValueError there). -/
def list_index (l : List String) (k : String) : Option Nat :=
  match l with
  | [] => none
  | a :: t => if a = k then some 0 else (list_index t k).map (fun n => n + 1)

/-! Storage backend operations, modelled from the spec (the backends live
outside the sequencing core): per-step data and files dictionaries,
current step cell, extra context dictionary, and reset. -/

def getStepData (st : StorageState Data) (k : String) : Option Data :=
  alist_get st.stepData k

def getStepFiles (st : StorageState Data) (k : String) : Option Data :=
  alist_get st.stepFiles k

/-- storage.get_step_data applied to a possibly-None step name, as in
render_next_step where next_step may be None. -/
def getStepDataOpt (st : StorageState Data) (k : Option String) : Option Data :=
  k.bind (getStepData st)

def getStepFilesOpt (st : StorageState Data) (k : Option String) : Option Data :=
  k.bind (getStepFiles st)

def setStepData (st : StorageState Data) (k : String) (d : Data) :
    StorageState Data :=
  { st with stepData := sdInsert st.stepData k d }

def setStepFiles (st : StorageState Data) (k : String) (d : Data) :
    StorageState Data :=
  { st with stepFiles := sdInsert st.stepFiles k d }

def setCurrentStep (st : StorageState Data) (k : Option String) :
    StorageState Data :=
  { st with currentStep := k }

/-- Modelled from the spec: storage.reset clears the persisted wizard
state. -/
def resetStorage : StorageState Data :=
  { currentStep := none, stepData := [], stepFiles := [], extraContext := [] }

/-- update_extra_context: merges the new mapping into the stored extra
context, keeping already stored entries that are not overwritten. -/
def updateExtraContext (st : StorageState Data) (m : List (String × Data)) :
    StorageState Data :=
  { st with extraContext := m.foldl (fun acc p => sdInsert acc p.1 p.2) st.extraContext }

/-- The extra_context keyword handling shared by get and post: when the
request carries an extra_context kwarg it is merged into storage first. -/
def applyExtraContext (req : Request Data) (st : StorageState Data) :
    StorageState Data :=
  match req.extraContext with
  | none => st
  | some m => updateExtraContext st m

/-! The FormWizard methods of formwizard/forms.py. -/

/-- Evaluation of one condition_list entry inside get_form_list:
condition = self.condition_list.get(form_key, True); if callable(condition)
it is called; the result is used through its truthiness. -/
def evalCondition (wz : FormWizard Data) (req : Request Data)
    (st : StorageState Data) (k : String) : Bool :=
  match alist_get wz.conditionList k with
  | none => true
  | some (.plain b) => b
  | some (.callable f) => f req st

/-- FormWizard.get_form_list: builds a fresh SortedDict containing every
declared step whose condition evaluates true. -/
def get_form_list (wz : FormWizard Data) (req : Request Data)
    (st : StorageState Data) : List (String × FormCls Data) :=
  wz.formList.foldl
    (fun acc p => if evalCondition wz req st p.1 then sdInsert acc p.1 p.2 else acc)
    []

/-- The key order of the active form list, form_list.keyOrder. -/
def activeKeys (wz : FormWizard Data) (req : Request Data)
    (st : StorageState Data) : List String :=
  (get_form_list wz req st).map Prod.fst

/-- FormWizard.get_first_step: get_form_list(...).keys()[0]; IndexError on
an empty active list. -/
def get_first_step (wz : FormWizard Data) (req : Request Data)
    (st : StorageState Data) : Except PyExn String :=
  match activeKeys wz req st with
  | [] => Except.error PyExn.indexError
  | k :: _ => Except.ok k

/-- FormWizard.get_last_step: get_form_list(...).keys()[-1]; IndexError on
an empty active list. -/
def get_last_step (wz : FormWizard Data) (req : Request Data)
    (st : StorageState Data) : Except PyExn String :=
  match (activeKeys wz req st).getLast? with
  | none => Except.error PyExn.indexError
  | some k => Except.ok k

/-- FormWizard.determine_step: storage.get_current_step() or
self.get_first_step(request, storage).  The Python or-operator falls
through on a falsy value, and the empty string is falsy, so a stored empty
step name also defers to get_first_step. -/
def determine_step (wz : FormWizard Data) (req : Request Data)
    (st : StorageState Data) : Except PyExn String :=
  match st.currentStep with
  | none => get_first_step wz req st
  | some s => if s = "" then get_first_step wz req st else Except.ok s

/-- FormWizard.get_next_step: index of the step in the active key order
plus one, the following key when in range, None otherwise; a missing step
raises ValueError, and a None step argument defaults to determine_step. -/
def get_next_step (wz : FormWizard Data) (req : Request Data)
    (st : StorageState Data) (stepArg : Option String) :
    Except PyExn (Option String) :=
  let keys := activeKeys wz req st
  match (match stepArg with
         | some s => Except.ok s
         | none => determine_step wz req st) with
  | Except.error e => Except.error e
  | Except.ok step =>
    match list_index keys step with
    | none => Except.error PyExn.valueError
    | some i =>
      if h : i + 1 < keys.length then Except.ok (some (keys.get ⟨i + 1, h⟩))
      else Except.ok none

/-- FormWizard.get_prev_step: index of the step in the active key order
minus one, None when that is negative, otherwise the preceding key (the
index i - 1 is always in range since i is a valid index); a missing step
raises ValueError, and a None step argument defaults to determine_step. -/
def get_prev_step (wz : FormWizard Data) (req : Request Data)
    (st : StorageState Data) (stepArg : Option String) :
    Except PyExn (Option String) :=
  let keys := activeKeys wz req st
  match (match stepArg with
         | some s => Except.ok s
         | none => determine_step wz req st) with
  | Except.error e => Except.error e
  | Except.ok step =>
    match list_index keys step with
    | none => Except.error PyExn.valueError
    | some i =>
      if i = 0 then Except.ok none
      else Except.ok ((activeKeys wz req st).get? (i - 1))

/-- FormWizard.get_form: resolves a None step argument through
determine_step, looks the form class up in self.form_list (KeyError when
absent) and returns the form instance bound with the given data and
files. -/
def get_form (wz : FormWizard Data) (req : Request Data)
    (st : StorageState Data) (stepArg : Option String)
    (data files : Option Data) : Except PyExn (FormInst Data) :=
  match (match stepArg with
         | some s => Except.ok s
         | none => determine_step wz req st) with
  | Except.error e => Except.error e
  | Except.ok step =>
    match alist_get wz.formList step with
    | none => Except.error PyExn.keyError
    | some _ => Except.ok (FormInst.mk step data files)

/-- form.is_valid() for the form of the given step bound with the given
data and files. -/
def stepValid (wz : FormWizard Data) (k : String) (d f : Option Data) : Bool :=
  match alist_get wz.formList k with
  | some c => c.valid d f
  | none => false

/-- The form render_done and get_all_cleaned_data rebuild for a step: the
form of that step bound with the stored data and files of the step. -/
def storedForm (st : StorageState Data) (k : String) : FormInst Data :=
  FormInst.mk k (getStepData st k) (getStepFiles st k)

/-- whether the stored data of a step still validates, the revalidation
check of render_done. -/
def stepRevalidates (wz : FormWizard Data) (st : StorageState Data)
    (k : String) : Bool :=
  stepValid wz k (getStepData st k) (getStepFiles st k)

/-- The loop of FormWizard.render_done: rebuilds each active form from
stored data; on the first form that does not validate it performs
render_revalidation_failure (set the current step to the failing step and
render that form); when all validate it calls done with the accumulated
final form list and then resets the wizard state. -/
def render_done_loop (wz : FormWizard Data) (req : Request Data)
    (st : StorageState Data) :
    List String → List (FormInst Data) → Response Data × StorageState Data
  | [], acc => (Response.done st acc, resetStorage)
  | k :: ks, acc =>
    let fo := storedForm st k
    if stepValid wz k fo.data fo.files then
      render_done_loop wz req st ks (acc ++ [fo])
    else
      (Response.render fo, setCurrentStep st (some k))

/-- FormWizard.render_done (the form argument is received but not used by
the base implementation). -/
def render_done (wz : FormWizard Data) (req : Request Data)
    (st : StorageState Data) (_form : FormInst Data) :
    Response Data × StorageState Data :=
  render_done_loop wz req st (activeKeys wz req st) []

/-- FormWizard.render_next_step: computes the next step from the current
one, builds its form from the stored data and files of that step, stores
it as the current step and renders it. -/
def render_next_step (wz : FormWizard Data) (req : Request Data)
    (st : StorageState Data) (_form : FormInst Data) :
    Except PyExn (Response Data × StorageState Data) :=
  match get_next_step wz req st none with
  | Except.error e => Except.error e
  | Except.ok next =>
    match get_form wz req st next (getStepDataOpt st next) (getStepFilesOpt st next) with
    | Except.error e => Except.error e
    | Except.ok newForm =>
      Except.ok (Response.render newForm, setCurrentStep st next)

/-- The tail of the submission path of FormWizard.post after both storage
writes: current_step = determine_step, last_step = get_last_step, then
render_done when the current step equals the last one and render_next_step
otherwise. -/
def post_advance (wz : FormWizard Data) (req : Request Data)
    (st2 : StorageState Data) (form : FormInst Data) :
    Except PyExn (Response Data × StorageState Data) :=
  match determine_step wz req st2 with
  | Except.error e => Except.error e
  | Except.ok cur =>
    match get_last_step wz req st2 with
    | Except.error e => Except.error e
    | Except.ok last =>
      if cur = last then Except.ok (render_done wz req st2 form)
      else render_next_step wz req st2 form

/-- storage.set_step_files(self.determine_step(request, storage),
self.process_step_files(request, storage, form)), where
process_step_files returns form.files, which is request.FILES. -/
def post_store_files (wz : FormWizard Data) (req : Request Data)
    (st1 : StorageState Data) (form : FormInst Data) :
    Except PyExn (Response Data × StorageState Data) :=
  match determine_step wz req st1 with
  | Except.error e => Except.error e
  | Except.ok k2 => post_advance wz req (setStepFiles st1 k2 req.postFiles) form

/-- storage.set_step_data(self.determine_step(request, storage),
self.process_step(request, storage, form)), where process_step returns
form.data, which is request.POST. -/
def post_store_data (wz : FormWizard Data) (req : Request Data)
    (st : StorageState Data) (form : FormInst Data) :
    Except PyExn (Response Data × StorageState Data) :=
  match determine_step wz req st with
  | Except.error e => Except.error e
  | Except.ok k1 => post_store_files wz req (setStepData st k1 req.postData) form

/-- The submission path of FormWizard.post (the branch taken when no valid
form_prev_step field is posted): build the form from request.POST and
request.FILES; when it validates, store its data and files under the
current step (determine_step is re-evaluated before each storage write and
again afterwards, exactly as in the source), then render_done when the
current step is the last active step and render_next_step otherwise; when
it does not validate, fall through to re-rendering the same form.  Every
Response.render value returned here marks a source-level self.render call
whose template-context tail, which can itself raise, is composed on by
with_render_tail in post_full and get_full below. -/
def post_submission (wz : FormWizard Data) (req : Request Data)
    (st : StorageState Data) : Except PyExn (Response Data × StorageState Data) :=
  match get_form wz req st none (some req.postData) (some req.postFiles) with
  | Except.error e => Except.error e
  | Except.ok form =>
    if stepValid wz form.step form.data form.files then
      post_store_data wz req st form
    else Except.ok (Response.render form, st)

/-- The branch dispatch of FormWizard.post after the extra_context merge:
when a form_prev_step field naming an active step is posted the wizard
jumps back to that step and re-renders it from its stored data; otherwise
the submitted data is processed by the submission path. -/
def post_prev_or_submit (wz : FormWizard Data) (req : Request Data)
    (st : StorageState Data) : Except PyExn (Response Data × StorageState Data) :=
  match req.postPrevStep with
  | some p =>
    if (activeKeys wz req st).contains p then
      let st1 := setCurrentStep st (some p)
      match determine_step wz req st1 with
      | Except.error e => Except.error e
      | Except.ok d1 =>
        match determine_step wz req st1 with
        | Except.error e => Except.error e
        | Except.ok d2 =>
          match get_form wz req st1 none (getStepData st1 d1) (getStepFiles st1 d2) with
          | Except.error e => Except.error e
          | Except.ok form => Except.ok (Response.render form, st1)
    else post_submission wz req st
  | none => post_submission wz req st

/-- FormWizard.post: merges an extra_context kwarg into storage first and
then dispatches on the form_prev_step field. -/
def post (wz : FormWizard Data) (req : Request Data)
    (st0 : StorageState Data) : Except PyExn (Response Data × StorageState Data) :=
  post_prev_or_submit wz req (applyExtraContext req st0)

/-- FormWizard.get: resets the wizard state, merges an extra_context
kwarg when given, stores the first active step as current and renders its
unbound form. -/
def get (wz : FormWizard Data) (req : Request Data)
    (_st0 : StorageState Data) : Except PyExn (Response Data × StorageState Data) :=
  let st1 := applyExtraContext req (resetStorage : StorageState Data)
  match get_first_step wz req st1 with
  | Except.error e => Except.error e
  | Except.ok f =>
    let st2 := setCurrentStep st1 (some f)
    match get_form wz req st2 none none none with
    | Except.error e => Except.error e
    | Except.ok form => Except.ok (Response.render form, st2)

/-! FormWizard.build_init_kwargs. -/

/-- An entry of the form_list argument of build_init_kwargs: either a
(step_name, form_class) tuple or a bare form class, which is keyed by its
position. -/
inductive FormListEntry (Data : Type) where
  | named (name : String) (cls : FormCls Data)
  | anon (cls : FormCls Data)

/-- The init_form_list construction loop of build_init_kwargs: tuples are
keyed by unicode(step_name), bare classes by unicode(i). -/
def build_form_list (entries : List (FormListEntry Data)) :
    List (String × FormCls Data) :=
  entries.enum.foldl
    (fun acc p =>
      match p.2 with
      | .named n c => sdInsert acc n c
      | .anon c => sdInsert acc (toString p.1) c)
    []

/-- The file-field check loop of build_init_kwargs: raises
NoFileStorageException at the first form whose base fields contain a
FileField when the wizard class has no file_storage attribute. -/
def file_check (fl : List (String × FormCls Data)) (hasFileStorage : Bool) :
    Except PyExn Unit :=
  match fl with
  | [] => Except.ok ()
  | (_, c) :: t =>
    if c.baseFieldsHasFile && !hasFileStorage then Except.error PyExn.noFileStorage
    else file_check t hasFileStorage

/-- FormWizard.build_init_kwargs: asserts the form list is non-empty
(AssertionError otherwise), builds the keyed form list and runs the
file-field configuration check. -/
def build_init_kwargs (entries : List (FormListEntry Data))
    (hasFileStorage : Bool) : Except PyExn (List (String × FormCls Data)) :=
  if entries.length > 0 then
    let fl := build_form_list entries
    match file_check fl hasFileStorage with
    | Except.error e => Except.error e
    | Except.ok _ => Except.ok fl
  else Except.error PyExn.assertionError

/-- The first active step whose stored data no longer validates, the step
render_done stops at. -/
def first_invalid (wz : FormWizard Data) (req : Request Data)
    (st : StorageState Data) : Option String :=
  (activeKeys wz req st).find? (fun k => ! stepRevalidates wz st k)

/-! The render tail.  Every return path of the handlers above that yields a
Response.render value corresponds to a source-level self.render call,
which runs render_template and get_template_context (forms.py 406-472) on
the storage state paired with the response.  That context assembly calls
the core sequencing functions and can therefore itself raise; it is
composed onto the handlers by with_render_tail below, giving the full
caller-boundary behaviour post_full and get_full. -/

/-- FormWizard.get_step_index: index of the given step in the active key
order; a None step argument defaults to determine_step, and a missing step
raises ValueError from list.index. -/
def get_step_index (wz : FormWizard Data) (req : Request Data)
    (st : StorageState Data) (stepArg : Option String) : Except PyExn Nat :=
  match (match stepArg with
         | some s => Except.ok s
         | none => determine_step wz req st) with
  | Except.error e => Except.error e
  | Except.ok step =>
    match list_index (activeKeys wz req st) step with
    | none => Except.error PyExn.valueError
    | some i => Except.ok i

/-- FormWizard.get_num_steps: the length of the active form list. -/
def get_num_steps (wz : FormWizard Data) (req : Request Data)
    (st : StorageState Data) : Nat :=
  (activeKeys wz req st).length

/-- The template context dictionary assembled by
FormWizard.get_template_context, one field per entry. -/
structure TemplateContext (Data : Type) where
  extraContext : List (String × Data)
  formStep : String
  formFirstStep : String
  formLastStep : String
  formPrevStep : Option String
  formNextStep : Option String
  formStep0 : Nat
  formStep1 : Nat
  formStepCount : Nat
  form : FormInst Data
deriving DecidableEq, Repr

/-- FormWizard.get_template_context: evaluates the context entries in the
order of the source dictionary literal (extra_context, form_step,
form_first_step, form_last_step, form_prev_step, form_next_step,
form_step0, form_step1, form_step_count, form); the first entry whose
computation raises propagates its exception.  form_step1 re-evaluates
get_step_index exactly as the source does. -/
def get_template_context (wz : FormWizard Data) (req : Request Data)
    (st : StorageState Data) (form : FormInst Data) :
    Except PyExn (TemplateContext Data) :=
  match determine_step wz req st with
  | Except.error e => Except.error e
  | Except.ok fstep =>
    match get_first_step wz req st with
    | Except.error e => Except.error e
    | Except.ok ffirst =>
      match get_last_step wz req st with
      | Except.error e => Except.error e
      | Except.ok flast =>
        match get_prev_step wz req st none with
        | Except.error e => Except.error e
        | Except.ok fprev =>
          match get_next_step wz req st none with
          | Except.error e => Except.error e
          | Except.ok fnext =>
            match get_step_index wz req st none with
            | Except.error e => Except.error e
            | Except.ok idx0 =>
              match get_step_index wz req st none with
              | Except.error e => Except.error e
              | Except.ok idx1 =>
                Except.ok ⟨st.extraContext, fstep, ffirst, flast, fprev,
                  fnext, idx0, idx1 + 1, get_num_steps wz req st, form⟩

/-- FormWizard.render_template: the form argument is always a (truthy)
form instance on the paths modelled here, so the form-or-get_form default
is the given form; template selection and the response body are external,
so the observable result is the rendered form, but an exception raised by
get_template_context propagates. -/
def render_template (wz : FormWizard Data) (req : Request Data)
    (st : StorageState Data) (form : FormInst Data) :
    Except PyExn (Response Data) :=
  match get_template_context wz req st form with
  | Except.error e => Except.error e
  | Except.ok _ => Except.ok (Response.render form)

/-- FormWizard.render: delegates to render_template. -/
def render (wz : FormWizard Data) (req : Request Data)
    (st : StorageState Data) (form : FormInst Data) :
    Except PyExn (Response Data) :=
  render_template wz req st form

/-- Composes the render tail onto a handler result: a Response.render
value marks a source-level self.render call on the paired storage state,
so the template-context computation runs there and its exception, if any,
propagates; a done response is produced by the external done callback and
has no render tail. -/
def with_render_tail (wz : FormWizard Data) (req : Request Data) :
    Except PyExn (Response Data × StorageState Data) →
    Except PyExn (Response Data × StorageState Data)
  | Except.error e => Except.error e
  | Except.ok (Response.render form, st2) =>
    (match render wz req st2 form with
     | Except.error e => Except.error e
     | Except.ok resp => Except.ok (resp, st2))
  | Except.ok (Response.done obs forms, st2) =>
    Except.ok (Response.done obs forms, st2)

/-- FormWizard.post at the caller boundary, render tail included. -/
def post_full (wz : FormWizard Data) (req : Request Data)
    (st0 : StorageState Data) : Except PyExn (Response Data × StorageState Data) :=
  with_render_tail wz req (post wz req st0)

/-- FormWizard.get at the caller boundary, render tail included. -/
def get_full (wz : FormWizard Data) (req : Request Data)
    (st0 : StorageState Data) : Except PyExn (Response Data × StorageState Data) :=
  with_render_tail wz req (get wz req st0)

/-- Decidable equality for error-monad results, used to evaluate the
wizard functions on concrete inputs. -/
instance {ε α : Type} [DecidableEq ε] [DecidableEq α] : DecidableEq (Except ε α)
  | Except.error a, Except.error b => decidable_of_iff (a = b) (by simp)
  | Except.error _, Except.ok _ => isFalse (by intro h; cases h)
  | Except.ok _, Except.error _ => isFalse (by intro h; cases h)
  | Except.ok a, Except.ok b => decidable_of_iff (a = b) (by simp)

/-! Concrete instances used to evaluate the development on small inputs. -/

/-- a form class that validates on any input and has no file field. -/
def clsTrue : FormCls Nat := ⟨fun _ _ => true, false⟩

/-- a form class that validates exactly when bound with data. -/
def clsBound : FormCls Nat := ⟨fun d _ => d.isSome, false⟩

/-- a plain GET-style request. -/
def reqNat : Request Nat := ⟨0, 0, none, none⟩

/-- a POST request submitting data 7 and files 8. -/
def reqPost : Request Nat := ⟨7, 8, none, none⟩

/-- empty storage state. -/
def stEmpty : StorageState Nat := ⟨none, [], [], []⟩

/-- a one-step wizard. -/
def wizOne : FormWizard Nat := ⟨[("0", clsTrue)], []⟩

/-- a two-step wizard whose forms validate when bound with data. -/
def wizTwo : FormWizard Nat := ⟨[("0", clsBound), ("1", clsBound)], []⟩

/-- the same two steps as wizTwo declared in the opposite order. -/
def wizTwoRev : FormWizard Nat := ⟨[("1", clsBound), ("0", clsBound)], []⟩

/-- a wizard with a step named by the empty string, declared second. -/
def wizEmptyName : FormWizard Nat := ⟨[("a", clsTrue), ("", clsTrue)], []⟩

/-- storage with the empty-string step name stored as current step. -/
def stEmptyName : StorageState Nat := ⟨some "", [], [], []⟩

/-- a wizard whose only step has a false condition. -/
def wizAllFalse : FormWizard Nat :=
  ⟨[("a", clsTrue)], [("a", StepCondition.plain false)]⟩

/-- storage holding valid data for both steps of wizTwo, current step the
last one. -/
def stBoth : StorageState Nat := ⟨some "1", [("0", 5), ("1", 6)], [], []⟩

/-- storage at the first step of wizTwo with nothing stored yet. -/
def stCur0 : StorageState Nat := ⟨some "0", [], [], []⟩

/-- the storage state after post stores the data and files of reqPost for
step 0 starting from stCur0. -/
def stStored : StorageState Nat := setStepFiles (setStepData stCur0 "0" 7) "0" 8

/-- a final-step form instance handed to render_done. -/
def formDummy : FormInst Nat := ⟨"1", some 6, none⟩

/-- a form list declaration with one file-free named form. -/
def entriesPlain : List (FormListEntry Nat) := [FormListEntry.named "a" clsTrue]

/-- a form class that never validates and has no file field. -/
def clsFalse : FormCls Nat := ⟨fun _ _ => false, false⟩

/-- a wizard whose declared step a has a false condition while step b is
active; a stored current step a is then stale (declared but inactive). -/
def wizStale : FormWizard Nat :=
  ⟨[("a", clsFalse), ("b", clsTrue)], [("a", StepCondition.plain false)]⟩

/-- the form list declaration of wizStale. -/
def entriesStale : List (FormListEntry Nat) :=
  [FormListEntry.named "a" clsFalse, FormListEntry.named "b" clsTrue]

/-- storage with the stale step a stored as current step. -/
def stCurA : StorageState Nat := ⟨some "a", [], [], []⟩

/-- a one-step wizard whose form never validates. -/
def wizNoVal : FormWizard Nat := ⟨[("0", clsFalse)], []⟩

/-! Helper lemmas about the dictionary primitives. -/

theorem alist_get_isSome_of_mem {α : Type} (l : List (String × α)) (k : String)
    (h : k ∈ l.map Prod.fst) : (alist_get l k).isSome := by
  induction l with
  | nil => simp at h
  | cons p t ih =>
    obtain ⟨a, v⟩ := p
    simp only [List.map_cons, List.mem_cons] at h
    by_cases ha : a = k
    · simp [alist_get, ha]
    · have ht : k ∈ t.map Prod.fst := by
        rcases h with h | h
        · exact absurd h.symm ha
        · exact h
      simp [alist_get, ha, ih ht]

theorem sdInsert_of_not_mem {α : Type} (l : List (String × α)) (k : String) (v : α)
    (h : k ∉ l.map Prod.fst) : sdInsert l k v = l ++ [(k, v)] := by
  induction l with
  | nil => simp [sdInsert]
  | cons p t ih =>
    obtain ⟨a, b⟩ := p
    simp only [List.map_cons, List.mem_cons, not_or] at h
    have ha : ¬ a = k := fun e => h.1 e.symm
    simp [sdInsert, ha, ih h.2]

theorem alist_get_sdInsert_self {α : Type} (l : List (String × α)) (k : String)
    (v : α) : alist_get (sdInsert l k v) k = some v := by
  induction l with
  | nil => simp [sdInsert, alist_get]
  | cons p t ih =>
    obtain ⟨a, b⟩ := p
    by_cases ha : a = k
    · simp [sdInsert, ha, alist_get]
    · simp [sdInsert, ha, alist_get, ih]

theorem map_fst_filter {α : Type} (l : List (String × α)) (q : String → Bool) :
    (l.filter (fun p => q p.1)).map Prod.fst = (l.map Prod.fst).filter q := by
  induction l with
  | nil => rfl
  | cons p t ih =>
    by_cases h : q p.1 <;> simp [List.filter_cons, h, ih]

theorem list_index_get (l : List String) (hnd : l.Nodup) (i : Nat)
    (h : i < l.length) : list_index l (l.get ⟨i, h⟩) = some i := by
  induction l generalizing i with
  | nil => simp at h
  | cons a t ih =>
    rw [List.nodup_cons] at hnd
    match i with
    | 0 => simp [list_index]
    | Nat.succ j =>
      have hj : j < t.length := by simpa using h
      have hget : (a :: t).get ⟨j + 1, h⟩ = t.get ⟨j, hj⟩ := rfl
      rw [hget]
      have hne : ¬ a = t.get ⟨j, hj⟩ := by
        intro e
        exact hnd.1 (e ▸ List.get_mem t j hj)
      have hrec := ih hnd.2 j hj
      simp only [List.get_eq_getElem] at hne hrec ⊢
      simp [list_index, hne, hrec]

/-! Helper lemmas connecting get_form_list with list filtering. -/

theorem get_form_list_aux (wz : FormWizard Data) (req : Request Data)
    (st : StorageState Data) (l : List (String × FormCls Data)) :
    ∀ (acc : List (String × FormCls Data)),
      (∀ x ∈ acc, x.1 ∉ l.map Prod.fst) → (l.map Prod.fst).Nodup →
      l.foldl
          (fun acc p =>
            if evalCondition wz req st p.1 then sdInsert acc p.1 p.2 else acc)
          acc
        = acc ++ l.filter (fun p => evalCondition wz req st p.1) := by
  induction l with
  | nil => intro acc _ _; simp
  | cons p t ih =>
    intro acc hdisj hnd
    obtain ⟨k, c⟩ := p
    simp only [List.map_cons, List.nodup_cons] at hnd
    have hkacc : k ∉ acc.map Prod.fst := by
      intro hmem
      rw [List.mem_map] at hmem
      obtain ⟨x, hx, hx1⟩ := hmem
      exact hdisj x hx (by simp [hx1])
    by_cases hc : evalCondition wz req st k
    · rw [List.foldl_cons]
      simp only [hc, if_true]
      rw [sdInsert_of_not_mem acc k c hkacc]
      rw [ih (acc ++ [(k, c)]) ?_ hnd.2]
      · simp [List.filter_cons, hc]
      · intro x hx
        rcases List.mem_append.mp hx with hxa | hxk
        · intro hmem
          exact hdisj x hxa (List.mem_cons_of_mem _ hmem)
        · simp only [List.mem_singleton] at hxk
          subst hxk
          exact hnd.1
    · rw [List.foldl_cons]
      rw [if_neg hc]
      rw [ih acc ?_ hnd.2]
      · simp [List.filter_cons, hc]
      · intro x hx hmem
        exact hdisj x hx (List.mem_cons_of_mem _ hmem)

theorem get_form_list_eq_filter (wz : FormWizard Data) (req : Request Data)
    (st : StorageState Data) (hnd : (wz.formList.map Prod.fst).Nodup) :
    get_form_list wz req st
      = wz.formList.filter (fun p => evalCondition wz req st p.1) := by
  unfold get_form_list
  simpa using get_form_list_aux wz req st wz.formList [] (by simp) hnd

theorem activeKeys_eq_filter (wz : FormWizard Data) (req : Request Data)
    (st : StorageState Data) (hnd : (wz.formList.map Prod.fst).Nodup) :
    activeKeys wz req st
      = (wz.formList.map Prod.fst).filter (evalCondition wz req st) := by
  unfold activeKeys
  rw [get_form_list_eq_filter wz req st hnd, map_fst_filter]

theorem activeKeys_nodup (wz : FormWizard Data) (req : Request Data)
    (st : StorageState Data) (hnd : (wz.formList.map Prod.fst).Nodup) :
    (activeKeys wz req st).Nodup := by
  rw [activeKeys_eq_filter wz req st hnd]
  exact hnd.filter _

theorem mem_activeKeys (wz : FormWizard Data) (req : Request Data)
    (st : StorageState Data) (hnd : (wz.formList.map Prod.fst).Nodup)
    (k : String) :
    k ∈ activeKeys wz req st
      ↔ k ∈ wz.formList.map Prod.fst ∧ evalCondition wz req st k = true := by
  rw [activeKeys_eq_filter wz req st hnd]
  exact List.mem_filter

/-! Helper lemmas about the render_done loop. -/

theorem render_done_loop_eq (wz : FormWizard Data) (req : Request Data)
    (st : StorageState Data) (l : List String) :
    ∀ (acc : List (FormInst Data)),
      render_done_loop wz req st l acc =
        match l.find? (fun k => ! stepRevalidates wz st k) with
        | none => (Response.done st (acc ++ l.map (storedForm st)), resetStorage)
        | some k => (Response.render (storedForm st k), setCurrentStep st (some k)) := by
  induction l with
  | nil => intro acc; simp [render_done_loop]
  | cons k ks ih =>
    intro acc
    by_cases hv : stepRevalidates wz st k
    · rw [List.find?_cons_of_neg _ (by simp [hv])]
      have hg : stepValid wz k (storedForm st k).data (storedForm st k).files = true := hv
      simp only [render_done_loop, hg, if_true]
      rw [ih (acc ++ [storedForm st k])]
      cases hks : ks.find? (fun k => ! stepRevalidates wz st k) <;> simp
    · rw [List.find?_cons_of_pos _ (by simp [hv])]
      have hg : stepValid wz k (storedForm st k).data (storedForm st k).files = false := by
        simpa [stepRevalidates] using hv
      simp [render_done_loop, hg]

theorem render_done_eq (wz : FormWizard Data) (req : Request Data)
    (st : StorageState Data) (form : FormInst Data) :
    render_done wz req st form =
      match first_invalid wz req st with
      | none =>
          (Response.done st ((activeKeys wz req st).map (storedForm st)), resetStorage)
      | some k =>
          (Response.render (storedForm st k), setCurrentStep st (some k)) := by
  unfold render_done first_invalid
  simpa using render_done_loop_eq wz req st (activeKeys wz req st) []

/-! Helper lemma about the file-field configuration check. -/

theorem file_check_eq (fl : List (String × FormCls Data)) (hFS : Bool) :
    file_check fl hFS =
      if (fl.any fun p => p.2.baseFieldsHasFile) && !hFS then
        Except.error PyExn.noFileStorage
      else Except.ok () := by
  induction fl with
  | nil => simp [file_check]
  | cons p t ih =>
    obtain ⟨a, c⟩ := p
    cases hFS with
    | true => simp [file_check, ih]
    | false =>
      by_cases hb : c.baseFieldsHasFile
      · simp [file_check, hb]
      · have hb2 : c.baseFieldsHasFile = false := by simpa using hb
        cases hany : (t.any fun p => p.2.baseFieldsHasFile) <;>
          simp [file_check, hb2, hany, List.any_cons, ih]

/-! Helper lemmas about the post flow. -/

theorem applyExtraContext_none (req : Request Data) (st : StorageState Data)
    (h : req.extraContext = none) : applyExtraContext req st = st := by
  unfold applyExtraContext
  rw [h]

theorem get_form_none_ok (wz : FormWizard Data) (req : Request Data)
    (st : StorageState Data) (cur : String)
    (hdet : determine_step wz req st = Except.ok cur)
    (hcls : (alist_get wz.formList cur).isSome) (d f : Option Data) :
    get_form wz req st none d f = Except.ok ⟨cur, d, f⟩ := by
  obtain ⟨c, hc⟩ := Option.isSome_iff_exists.mp hcls
  have e : get_form wz req st none d f =
      (match determine_step wz req st with
       | Except.error e => Except.error e
       | Except.ok step =>
         match alist_get wz.formList step with
         | none => Except.error PyExn.keyError
         | some _ => Except.ok (FormInst.mk step d f)) := rfl
  rw [e, hdet]
  simp [hc]

theorem get_form_some_ok (wz : FormWizard Data) (req : Request Data)
    (st : StorageState Data) (s : String) (c : FormCls Data)
    (hc : alist_get wz.formList s = some c) (d f : Option Data) :
    get_form wz req st (some s) d f = Except.ok ⟨s, d, f⟩ := by
  have e : get_form wz req st (some s) d f =
      (match alist_get wz.formList s with
       | none => Except.error PyExn.keyError
       | some _ => Except.ok (FormInst.mk s d f)) := rfl
  rw [e, hc]

theorem list_index_of_mem (l : List String) (k : String) (h : k ∈ l) :
    ∃ i, ∃ hi : i < l.length, list_index l k = some i ∧ l.get ⟨i, hi⟩ = k := by
  induction l with
  | nil => simp at h
  | cons a t ih =>
    by_cases ha : a = k
    · exact ⟨0, by simp, by simp [list_index, ha], ha⟩
    · have ht : k ∈ t := by
        rcases List.mem_cons.mp h with h1 | h1
        · exact absurd h1.symm ha
        · exact h1
      obtain ⟨i, hi, hidx, hget⟩ := ih ht
      exact ⟨i + 1, by simpa using Nat.succ_lt_succ hi,
        by simp [list_index, ha, hidx], hget⟩

theorem post_eq_submission (wz : FormWizard Data) (req : Request Data)
    (st : StorageState Data) (hprev : req.postPrevStep = none)
    (hctx : req.extraContext = none) :
    post wz req st = post_submission wz req st := by
  unfold post post_prev_or_submit
  rw [applyExtraContext_none req st hctx, hprev]

theorem post_submission_valid (wz : FormWizard Data) (req : Request Data)
    (st : StorageState Data) (cur : String)
    (hdet : determine_step wz req st = Except.ok cur)
    (hcls : (alist_get wz.formList cur).isSome)
    (hval : stepValid wz cur (some req.postData) (some req.postFiles) = true) :
    post_submission wz req st
      = post_store_data wz req st ⟨cur, some req.postData, some req.postFiles⟩ := by
  unfold post_submission
  rw [get_form_none_ok wz req st cur hdet hcls]
  simp [hval]

theorem post_store_data_eq (wz : FormWizard Data) (req : Request Data)
    (st : StorageState Data) (cur : String) (form : FormInst Data)
    (hdet : determine_step wz req st = Except.ok cur) :
    post_store_data wz req st form
      = post_store_files wz req (setStepData st cur req.postData) form := by
  unfold post_store_data
  rw [hdet]

theorem post_store_files_eq (wz : FormWizard Data) (req : Request Data)
    (st1 : StorageState Data) (cur : String) (form : FormInst Data)
    (hdet : determine_step wz req st1 = Except.ok cur) :
    post_store_files wz req st1 form
      = post_advance wz req (setStepFiles st1 cur req.postFiles) form := by
  unfold post_store_files
  rw [hdet]

theorem post_advance_eq (wz : FormWizard Data) (req : Request Data)
    (st2 : StorageState Data) (cur last : String) (form : FormInst Data)
    (hdet : determine_step wz req st2 = Except.ok cur)
    (hlast : get_last_step wz req st2 = Except.ok last) :
    post_advance wz req st2 form
      = if cur = last then Except.ok (render_done wz req st2 form)
        else render_next_step wz req st2 form := by
  have e : post_advance wz req st2 form =
      (match get_last_step wz req st2 with
       | Except.error e => Except.error e
       | Except.ok last2 =>
         if cur = last2 then Except.ok (render_done wz req st2 form)
         else render_next_step wz req st2 form) := by
    unfold post_advance
    rw [hdet]
  rw [e, hlast]

theorem get_last_step_ok (wz : FormWizard Data) (req : Request Data)
    (st : StorageState Data) (l : String)
    (h : get_last_step wz req st = Except.ok l) :
    (activeKeys wz req st).getLast? = some l := by
  unfold get_last_step at h
  cases hg : (activeKeys wz req st).getLast? with
  | none => rw [hg] at h; simp at h
  | some a => rw [hg] at h; simpa using h

theorem render_next_step_eq (wz : FormWizard Data) (req : Request Data)
    (st2 : StorageState Data) (form : FormInst Data) (n : String)
    (c : FormCls Data)
    (hnext : get_next_step wz req st2 none = Except.ok (some n))
    (hc : alist_get wz.formList n = some c) :
    render_next_step wz req st2 form =
      Except.ok (Response.render ⟨n, getStepData st2 n, getStepFiles st2 n⟩,
        setCurrentStep st2 (some n)) := by
  have e : render_next_step wz req st2 form =
      (match get_form wz req st2 (some n) (getStepDataOpt st2 (some n))
               (getStepFilesOpt st2 (some n)) with
       | Except.error e => Except.error e
       | Except.ok newForm =>
         Except.ok (Response.render newForm, setCurrentStep st2 (some n))) := by
    unfold render_next_step
    rw [hnext]
  rw [e, get_form_some_ok wz req st2 n c hc]
  rfl

theorem get_next_step_none_of_mem (wz : FormWizard Data) (req : Request Data)
    (st2 : StorageState Data) (cur last : String)
    (hdet2 : determine_step wz req st2 = Except.ok cur)
    (hmem : cur ∈ activeKeys wz req st2)
    (hlast : get_last_step wz req st2 = Except.ok last)
    (hne : cur ≠ last) :
    ∃ n, get_next_step wz req st2 none = Except.ok (some n)
      ∧ n ∈ activeKeys wz req st2 := by
  obtain ⟨i, hi, hidx, hget⟩ := list_index_of_mem (activeKeys wz req st2) cur hmem
  have hgl : (activeKeys wz req st2).getLast? = some last :=
    get_last_step_ok wz req st2 last hlast
  have h2 : i + 1 < (activeKeys wz req st2).length := by
    by_contra hcon
    have hieq : i = (activeKeys wz req st2).length - 1 := by omega
    have hq : (activeKeys wz req st2).getLast?
        = (activeKeys wz req st2).get? ((activeKeys wz req st2).length - 1) :=
      List.getLast?_eq_get? _
    rw [← hieq, List.get?_eq_get hi, hgl, hget] at hq
    exact hne (Option.some.inj hq).symm
  have e : get_next_step wz req st2 none =
      (match list_index (activeKeys wz req st2) cur with
       | none => Except.error PyExn.valueError
       | some j =>
         if hj : j + 1 < (activeKeys wz req st2).length then
           Except.ok (some ((activeKeys wz req st2).get ⟨j + 1, hj⟩))
         else Except.ok none) := by
    have e0 : get_next_step wz req st2 none =
        (match determine_step wz req st2 with
         | Except.error e => Except.error e
         | Except.ok s =>
           match list_index (activeKeys wz req st2) s with
           | none => Except.error PyExn.valueError
           | some j =>
             if hj : j + 1 < (activeKeys wz req st2).length then
               Except.ok (some ((activeKeys wz req st2).get ⟨j + 1, hj⟩))
             else Except.ok none) := rfl
    rw [e0, hdet2]
  refine ⟨(activeKeys wz req st2).get ⟨i + 1, h2⟩, ?_, List.get_mem _ _ _⟩
  rw [e, hidx]
  show (if hj : i + 1 < (activeKeys wz req st2).length then
          Except.ok (some ((activeKeys wz req st2).get ⟨i + 1, hj⟩))
        else Except.ok none) = _
  rw [dif_pos h2]

theorem get_template_context_isOk (wz : FormWizard Data) (req : Request Data)
    (st : StorageState Data) (form : FormInst Data) (cur : String)
    (hdet : determine_step wz req st = Except.ok cur)
    (hmem : cur ∈ activeKeys wz req st) :
    (get_template_context wz req st form).isOk = true := by
  have hne : activeKeys wz req st ≠ [] := by
    intro he
    rw [he] at hmem
    simp at hmem
  obtain ⟨f0, hf⟩ : ∃ f0, get_first_step wz req st = Except.ok f0 := by
    unfold get_first_step
    cases hak : activeKeys wz req st with
    | nil => exact absurd hak hne
    | cons a t => exact ⟨a, rfl⟩
  obtain ⟨l0, hl⟩ : ∃ l0, get_last_step wz req st = Except.ok l0 := by
    unfold get_last_step
    rw [List.getLast?_eq_getLast _ hne]
    exact ⟨_, rfl⟩
  obtain ⟨i, hi, hidx, hget⟩ := list_index_of_mem (activeKeys wz req st) cur hmem
  have e1p : get_prev_step wz req st none =
      (match list_index (activeKeys wz req st) cur with
       | none => Except.error PyExn.valueError
       | some j =>
         if j = 0 then Except.ok none
         else Except.ok ((activeKeys wz req st).get? (j - 1))) := by
    have e0p : get_prev_step wz req st none =
        (match determine_step wz req st with
         | Except.error e => Except.error e
         | Except.ok s =>
           match list_index (activeKeys wz req st) s with
           | none => Except.error PyExn.valueError
           | some j =>
             if j = 0 then Except.ok none
             else Except.ok ((activeKeys wz req st).get? (j - 1))) := rfl
    rw [e0p, hdet]
  obtain ⟨pv, hpv⟩ : ∃ pv, get_prev_step wz req st none = Except.ok pv := by
    refine ⟨if i = 0 then none else (activeKeys wz req st).get? (i - 1), ?_⟩
    rw [e1p, hidx]
    by_cases h0 : i = 0 <;> simp [h0]
  have e1n : get_next_step wz req st none =
      (match list_index (activeKeys wz req st) cur with
       | none => Except.error PyExn.valueError
       | some j =>
         if hj : j + 1 < (activeKeys wz req st).length then
           Except.ok (some ((activeKeys wz req st).get ⟨j + 1, hj⟩))
         else Except.ok none) := by
    have e0n : get_next_step wz req st none =
        (match determine_step wz req st with
         | Except.error e => Except.error e
         | Except.ok s =>
           match list_index (activeKeys wz req st) s with
           | none => Except.error PyExn.valueError
           | some j =>
             if hj : j + 1 < (activeKeys wz req st).length then
               Except.ok (some ((activeKeys wz req st).get ⟨j + 1, hj⟩))
             else Except.ok none) := rfl
    rw [e0n, hdet]
  obtain ⟨nv, hnv⟩ : ∃ nv, get_next_step wz req st none = Except.ok nv := by
    by_cases h2 : i + 1 < (activeKeys wz req st).length
    · refine ⟨some ((activeKeys wz req st).get ⟨i + 1, h2⟩), ?_⟩
      rw [e1n, hidx]
      show (if hj : i + 1 < (activeKeys wz req st).length then
              Except.ok (some ((activeKeys wz req st).get ⟨i + 1, hj⟩))
            else Except.ok none) = _
      rw [dif_pos h2]
    · refine ⟨none, ?_⟩
      rw [e1n, hidx]
      show (if hj : i + 1 < (activeKeys wz req st).length then
              Except.ok (some ((activeKeys wz req st).get ⟨i + 1, hj⟩))
            else Except.ok none) = _
      rw [dif_neg h2]
  have hiv : get_step_index wz req st none = Except.ok i := by
    have e0i : get_step_index wz req st none =
        (match determine_step wz req st with
         | Except.error e => Except.error e
         | Except.ok s =>
           match list_index (activeKeys wz req st) s with
           | none => Except.error PyExn.valueError
           | some j => Except.ok j) := rfl
    have e1i : get_step_index wz req st none =
        (match list_index (activeKeys wz req st) cur with
         | none => Except.error PyExn.valueError
         | some j => Except.ok j) := by
      rw [e0i, hdet]
    rw [e1i, hidx]
  simp [get_template_context, hdet, hf, hl, hpv, hnv, hiv, Except.isOk,
    Except.toBool]

theorem render_ok (wz : FormWizard Data) (req : Request Data)
    (st : StorageState Data) (form : FormInst Data) (cur : String)
    (hdet : determine_step wz req st = Except.ok cur)
    (hmem : cur ∈ activeKeys wz req st) :
    render wz req st form = Except.ok (Response.render form) := by
  have hok := get_template_context_isOk wz req st form cur hdet hmem
  unfold render render_template
  cases hg : get_template_context wz req st form with
  | error e => rw [hg] at hok; simp [Except.isOk, Except.toBool] at hok
  | ok ctx => rfl

theorem with_render_tail_ok_render (wz : FormWizard Data) (req : Request Data)
    (st2 : StorageState Data) (form : FormInst Data)
    (hren : render wz req st2 form = Except.ok (Response.render form)) :
    with_render_tail wz req (Except.ok (Response.render form, st2))
      = Except.ok (Response.render form, st2) := by
  show (match render wz req st2 form with
        | Except.error e => Except.error e
        | Except.ok resp => Except.ok (resp, st2)) = _
  rw [hren]

theorem build_init_kwargs_eq (entries : List (FormListEntry Data))
    (hasFS : Bool) (hlen : entries.length > 0) :
    build_init_kwargs entries hasFS =
      (match file_check (build_form_list entries) hasFS with
       | Except.error e => Except.error e
       | Except.ok _ => Except.ok (build_form_list entries)) := by
  unfold build_init_kwargs
  rw [if_pos hlen]

theorem post_submission_invalid (wz : FormWizard Data) (req : Request Data)
    (st : StorageState Data) (cur : String)
    (hdet : determine_step wz req st = Except.ok cur)
    (hcls : (alist_get wz.formList cur).isSome)
    (hinv : stepValid wz cur (some req.postData) (some req.postFiles) = false) :
    post_submission wz req st
      = Except.ok
          (Response.render ⟨cur, some req.postData, some req.postFiles⟩, st) := by
  unfold post_submission
  rw [get_form_none_ok wz req st cur hdet hcls]
  simp [hinv]

theorem next_prev_at_index (wz : FormWizard Data) (req : Request Data)
    (st : StorageState Data) (hnd : (wz.formList.map Prod.fst).Nodup)
    (i : Nat) (h : i < (activeKeys wz req st).length) :
    get_next_step wz req st (some ((activeKeys wz req st).get ⟨i, h⟩))
        = Except.ok ((activeKeys wz req st).get? (i + 1))
  ∧ get_prev_step wz req st (some ((activeKeys wz req st).get ⟨i, h⟩))
        = Except.ok
            (if i = 0 then none else (activeKeys wz req st).get? (i - 1)) := by
  have hidx := list_index_get (activeKeys wz req st)
    (activeKeys_nodup wz req st hnd) i h
  constructor
  · have e1 : get_next_step wz req st (some ((activeKeys wz req st).get ⟨i, h⟩))
        = (match list_index (activeKeys wz req st)
                  ((activeKeys wz req st).get ⟨i, h⟩) with
           | none => Except.error PyExn.valueError
           | some j =>
             if hj : j + 1 < (activeKeys wz req st).length then
               Except.ok (some ((activeKeys wz req st).get ⟨j + 1, hj⟩))
             else Except.ok none) := rfl
    rw [e1, hidx]
    by_cases h2 : i + 1 < (activeKeys wz req st).length
    · rw [List.get?_eq_get h2]
      simp [h2]
    · have hnone : (activeKeys wz req st).get? (i + 1) = none :=
        List.get?_eq_none.mpr (by omega)
      rw [hnone]
      simp [h2]
  · have e2 : get_prev_step wz req st (some ((activeKeys wz req st).get ⟨i, h⟩))
        = (match list_index (activeKeys wz req st)
                  ((activeKeys wz req st).get ⟨i, h⟩) with
           | none => Except.error PyExn.valueError
           | some j =>
             if j = 0 then Except.ok none
             else Except.ok ((activeKeys wz req st).get? (j - 1))) := rfl
    rw [e2, hidx]
    by_cases hi : i = 0 <;> simp [hi]

/-! Claim theorems. -/

/-- C1: render_done invokes the done callback only when every step of the
active step list revalidates against its stored data; when some active
step fails revalidation, it sets the current step to the first failing
step and re-renders that step instead of invoking done. -/
theorem c1_render_done_gate (wz : FormWizard Data) (req : Request Data)
    (st : StorageState Data) (form : FormInst Data) :
    (first_invalid wz req st = none →
       render_done wz req st form =
         (Response.done st ((activeKeys wz req st).map (storedForm st)),
          resetStorage))
  ∧ (∀ k, first_invalid wz req st = some k →
       render_done wz req st form =
         (Response.render (storedForm st k), setCurrentStep st (some k))
       ∧ ∀ obs fs, (render_done wz req st form).1 ≠ Response.done obs fs)
  ∧ (first_invalid wz req st = none ↔
       ∀ k ∈ activeKeys wz req st, stepRevalidates wz st k = true) := by
  refine ⟨?_, ?_, ?_⟩
  · intro h
    rw [render_done_eq wz req st form, h]
  · intro k h
    constructor
    · rw [render_done_eq wz req st form, h]
    · intro obs fs
      rw [render_done_eq wz req st form, h]
      simp
  · unfold first_invalid
    rw [List.find?_eq_none]
    constructor
    · intro h k hk
      simpa using h k hk
    · intro h k hk
      simp [h k hk]

theorem c1_witness :
    first_invalid wizTwo reqNat stBoth = none
  ∧ render_done wizTwo reqNat stBoth formDummy =
      (Response.done stBoth
         ((activeKeys wizTwo reqNat stBoth).map (storedForm stBoth)),
       resetStorage) :=
  ⟨by decide, (c1_render_done_gate wizTwo reqNat stBoth formDummy).1 (by decide)⟩

/-- C2: get_form_list returns exactly those declared steps whose condition
evaluates true (a missing condition defaults to true, a callable is
applied at evaluation time), and the returned steps appear in declaration
order. -/
theorem c2_get_form_list_filter (wz : FormWizard Data) (req : Request Data)
    (st : StorageState Data) (hnd : (wz.formList.map Prod.fst).Nodup) :
    get_form_list wz req st
        = wz.formList.filter (fun p => evalCondition wz req st p.1)
  ∧ (∀ k, k ∈ activeKeys wz req st
        ↔ k ∈ wz.formList.map Prod.fst ∧ evalCondition wz req st k = true)
  ∧ (activeKeys wz req st).Sublist (wz.formList.map Prod.fst) :=
  ⟨get_form_list_eq_filter wz req st hnd,
   mem_activeKeys wz req st hnd,
   by rw [activeKeys_eq_filter wz req st hnd]; exact List.filter_sublist _⟩

theorem c2_witness :
    "0" ∈ activeKeys wizTwo reqNat stEmpty
      ↔ "0" ∈ wizTwo.formList.map Prod.fst
        ∧ evalCondition wizTwo reqNat stEmpty "0" = true :=
  (c2_get_form_list_filter wizTwo reqNat stEmpty (by decide)).2.1 "0"

/-- C9: when every active step revalidates, render_done hands the
pre-reset storage state, with all per-step stored data intact, to the done
callback and resets only afterwards, so the storage returned with the done
response is the empty wizard state. -/
theorem c9_done_then_reset (wz : FormWizard Data) (req : Request Data)
    (st : StorageState Data) (form : FormInst Data)
    (hall : ∀ k ∈ activeKeys wz req st, stepRevalidates wz st k = true) :
    render_done wz req st form =
      (Response.done st ((activeKeys wz req st).map (storedForm st)),
       resetStorage)
    ∧ (resetStorage : StorageState Data).currentStep = none
    ∧ (resetStorage : StorageState Data).stepData = []
    ∧ (resetStorage : StorageState Data).stepFiles = [] := by
  have hfi : first_invalid wz req st = none := by
    unfold first_invalid
    rw [List.find?_eq_none]
    intro k hk
    simp [hall k hk]
  refine ⟨?_, rfl, rfl, rfl⟩
  rw [render_done_eq wz req st form, hfi]

theorem c9_witness :
    render_done wizTwo reqNat stBoth formDummy =
      (Response.done stBoth
         ((activeKeys wizTwo reqNat stBoth).map (storedForm stBoth)),
       resetStorage)
    ∧ (resetStorage : StorageState Nat).stepData = [] :=
  ⟨(c9_done_then_reset wizTwo reqNat stBoth formDummy (by decide)).1,
   (c9_done_then_reset wizTwo reqNat stBoth formDummy (by decide)).2.2.1⟩

/-- C10: get_first_step and get_last_step return the first and last active
step name whenever some declared step condition evaluates true, so their
out-of-bounds indexing is unreachable under that precondition; when every
condition evaluates false, the indexing of keys()[0] and keys()[-1] has no
valid result and raises IndexError, even with a non-empty declared form
list, and determine_step with no stored step propagates it. -/
theorem c10_first_last_totality (wz : FormWizard Data) (req : Request Data)
    (st : StorageState Data) (hnd : (wz.formList.map Prod.fst).Nodup) :
    ((∃ k ∈ wz.formList.map Prod.fst, evalCondition wz req st k = true) →
       (∃ f, get_first_step wz req st = Except.ok f
           ∧ (activeKeys wz req st).head? = some f)
       ∧ (∃ l, get_last_step wz req st = Except.ok l
           ∧ (activeKeys wz req st).getLast? = some l))
  ∧ ((∀ k ∈ wz.formList.map Prod.fst, evalCondition wz req st k = false) →
       get_first_step wz req st = Except.error PyExn.indexError
       ∧ get_last_step wz req st = Except.error PyExn.indexError
       ∧ (st.currentStep = none →
            determine_step wz req st = Except.error PyExn.indexError)) := by
  constructor
  · rintro ⟨k, hk, hc⟩
    have hne : activeKeys wz req st ≠ [] := by
      intro he
      have hmem : k ∈ activeKeys wz req st :=
        (mem_activeKeys wz req st hnd k).mpr ⟨hk, hc⟩
      rw [he] at hmem
      simp at hmem
    obtain ⟨a, t, ha⟩ := List.exists_cons_of_ne_nil hne
    constructor
    · refine ⟨a, ?_, ?_⟩
      · unfold get_first_step
        rw [ha]
      · rw [ha]
        rfl
    · have hgl : (activeKeys wz req st).getLast?
          = some ((activeKeys wz req st).getLast hne) :=
        List.getLast?_eq_getLast _ hne
      refine ⟨(activeKeys wz req st).getLast hne, ?_, hgl⟩
      unfold get_last_step
      rw [hgl]
  · intro hall
    have hemp : activeKeys wz req st = [] := by
      rw [activeKeys_eq_filter wz req st hnd]
      rw [List.filter_eq_nil_iff]
      intro a ha
      simp [hall a ha]
    refine ⟨?_, ?_, ?_⟩
    · unfold get_first_step
      rw [hemp]
    · unfold get_last_step
      rw [hemp]
      rfl
    · intro hcur
      unfold determine_step
      rw [hcur]
      unfold get_first_step
      rw [hemp]

/-- C4: for every active step list and every step in it, get_next_step
returns the immediately following active step and None when the step is
the last active step, and get_prev_step returns the immediately preceding
active step and None when the step is the first active step. -/
theorem c4_next_prev_adjacent (wz : FormWizard Data) (req : Request Data)
    (st : StorageState Data) (hnd : (wz.formList.map Prod.fst).Nodup)
    (i : Nat) (h : i < (activeKeys wz req st).length) :
    get_next_step wz req st (some ((activeKeys wz req st).get ⟨i, h⟩))
        = Except.ok ((activeKeys wz req st).get? (i + 1))
  ∧ get_prev_step wz req st (some ((activeKeys wz req st).get ⟨i, h⟩))
        = Except.ok
            (if i = 0 then none else (activeKeys wz req st).get? (i - 1)) :=
  next_prev_at_index wz req st hnd i h

theorem c4_witness :
    get_next_step wizTwo reqNat stEmpty (some "0") = Except.ok (some "1")
  ∧ get_prev_step wizTwo reqNat stEmpty (some "0") = Except.ok none := by
  have h := c4_next_prev_adjacent wizTwo reqNat stEmpty (by decide) 0 (by decide)
  exact ⟨h.1, h.2⟩

/-- C3 counterexample: with a single active step, get_next_step on the
first step returns None, and get_prev_step applied to that None result
resolves the step through determine_step and returns None, not the first
step, so prev(next(first)) = first fails for one-step lists. -/
theorem c3_counterexample :
    get_first_step wizOne reqNat stEmpty = Except.ok "0"
  ∧ get_next_step wizOne reqNat stEmpty (some "0") = Except.ok none
  ∧ get_prev_step wizOne reqNat stEmpty none = Except.ok none
  ∧ (Except.ok (none : Option String) : Except PyExn (Option String))
      ≠ Except.ok (some "0") := by
  decide

/-- C3 amended: when the active step list contains at least two steps,
get_next_step on the first active step yields the second one, and
get_prev_step on that result returns the first active step. -/
theorem c3_prev_next_first (wz : FormWizard Data) (req : Request Data)
    (st : StorageState Data) (hnd : (wz.formList.map Prod.fst).Nodup)
    (h2 : 2 ≤ (activeKeys wz req st).length) :
    ∃ f n, get_first_step wz req st = Except.ok f
      ∧ get_next_step wz req st (some f) = Except.ok (some n)
      ∧ get_prev_step wz req st (some n) = Except.ok (some f) := by
  have h0 : 0 < (activeKeys wz req st).length := by omega
  have h1 : 1 < (activeKeys wz req st).length := by omega
  obtain ⟨f, hf⟩ : ∃ f, (activeKeys wz req st).get? 0 = some f :=
    ⟨_, List.get?_eq_get h0⟩
  obtain ⟨n, hn⟩ : ∃ n, (activeKeys wz req st).get? 1 = some n :=
    ⟨_, List.get?_eq_get h1⟩
  have hg0 : (activeKeys wz req st).get ⟨0, h0⟩ = f := by
    have hq := List.get?_eq_get h0
    rw [hf] at hq
    exact (Option.some.inj hq).symm
  have hg1 : (activeKeys wz req st).get ⟨1, h1⟩ = n := by
    have hq := List.get?_eq_get h1
    rw [hn] at hq
    exact (Option.some.inj hq).symm
  refine ⟨f, n, ?_, ?_, ?_⟩
  · cases hak : activeKeys wz req st with
    | nil => rw [hak] at hf; simp at hf
    | cons a rest =>
      rw [hak] at hf
      simp at hf
      unfold get_first_step
      rw [hak, hf]
  · have hnp := (next_prev_at_index wz req st hnd 0 h0).1
    rw [hg0, hn] at hnp
    exact hnp
  · have hnp := (next_prev_at_index wz req st hnd 1 h1).2
    rw [hg1] at hnp
    simp only [if_neg (by omega : ¬ (1 : Nat) = 0)] at hnp
    rw [hf] at hnp
    exact hnp

theorem c3_witness :
    ∃ f n, get_first_step wizTwo reqNat stEmpty = Except.ok f
      ∧ get_next_step wizTwo reqNat stEmpty (some f) = Except.ok (some n)
      ∧ get_prev_step wizTwo reqNat stEmpty (some n) = Except.ok (some f) :=
  c3_prev_next_first wizTwo reqNat stEmpty (by decide) (by decide)

/-- C5 counterexample: a step may legitimately be named by the empty
string; when that name is stored as the current step, the or-fallback of
determine_step treats it as falsy and returns the first active step
instead of the stored one. -/
theorem c5_counterexample :
    stEmptyName.currentStep = some ""
  ∧ "" ∈ activeKeys wizEmptyName reqNat stEmptyName
  ∧ determine_step wizEmptyName reqNat stEmptyName = Except.ok "a"
  ∧ (Except.ok "a" : Except PyExn String) ≠ Except.ok "" := by
  decide

/-- C5 amended: determine_step returns the stored step name when one is
stored and it is non-empty; when no step is stored, or the stored name is
the empty string (falsy in the or-fallback), it defers to get_first_step,
the first active step. -/
theorem c5_determine_step_spec (wz : FormWizard Data) (req : Request Data)
    (st : StorageState Data) :
    (st.currentStep = none →
       determine_step wz req st = get_first_step wz req st)
  ∧ (∀ s, st.currentStep = some s → s ≠ "" →
       determine_step wz req st = Except.ok s)
  ∧ (st.currentStep = some "" →
       determine_step wz req st = get_first_step wz req st) := by
  refine ⟨?_, ?_, ?_⟩
  · intro h
    unfold determine_step
    rw [h]
  · intro s h hs
    unfold determine_step
    rw [h]
    simp [hs]
  · intro h
    unfold determine_step
    rw [h]
    simp

theorem c5_witness :
    determine_step wizTwo reqNat stBoth = Except.ok "1" :=
  (c5_determine_step_spec wizTwo reqNat stBoth).2.1 "1" rfl (by decide)

theorem c10_witness :
    ((∃ f, get_first_step wizTwo reqNat stEmpty = Except.ok f
         ∧ (activeKeys wizTwo reqNat stEmpty).head? = some f)
   ∧ (∃ l, get_last_step wizTwo reqNat stEmpty = Except.ok l
         ∧ (activeKeys wizTwo reqNat stEmpty).getLast? = some l)) :=
  (c10_first_last_totality wizTwo reqNat stEmpty (by decide)).1 (by decide)

/-- C8: two declarations of the same steps with the same conditions in
different orders yield the same set of active steps; the active key
orders are permutations of each other, so only the sequencing differs. -/
theorem c8_active_set_order_independent (wz1 wz2 : FormWizard Data)
    (req : Request Data) (st : StorageState Data)
    (hperm : wz1.formList.Perm wz2.formList)
    (hcond : wz1.conditionList = wz2.conditionList)
    (hnd : (wz1.formList.map Prod.fst).Nodup) :
    (activeKeys wz1 req st).Perm (activeKeys wz2 req st)
  ∧ ∀ k, (k ∈ activeKeys wz1 req st ↔ k ∈ activeKeys wz2 req st) := by
  have hnd2 : (wz2.formList.map Prod.fst).Nodup :=
    ((hperm.map Prod.fst).nodup_iff).mp hnd
  have hev : ∀ k, evalCondition wz2 req st k = evalCondition wz1 req st k := by
    intro k
    unfold evalCondition
    rw [hcond]
  have hperm2 : (activeKeys wz1 req st).Perm (activeKeys wz2 req st) := by
    rw [activeKeys_eq_filter wz1 req st hnd, activeKeys_eq_filter wz2 req st hnd2]
    have hsame : (wz2.formList.map Prod.fst).filter (evalCondition wz2 req st)
        = (wz2.formList.map Prod.fst).filter (evalCondition wz1 req st) := by
      apply List.filter_congr
      intro a _
      rw [hev a]
    rw [hsame]
    exact (hperm.map Prod.fst).filter _
  exact ⟨hperm2, fun k => hperm2.mem_iff⟩

theorem c8_witness :
    (activeKeys wizTwo reqNat stEmpty).Perm (activeKeys wizTwoRev reqNat stEmpty) :=
  (c8_active_set_order_independent wizTwo wizTwoRev reqNat stEmpty
     (List.Perm.swap ("1", clsBound) ("0", clsBound) []) rfl (by decide)).1

/-- C7 counterexample, at the full caller boundary (render tail included):
first, a legitimately constructed wizard (one file-free form, so
build_init_kwargs succeeds) whose only step has a false condition makes
the GET handler raise IndexError, from keys()[0] on the empty active list;
second, a legitimately constructed two-step wizard whose stored current
step is declared but inactive makes the POST validation-failure re-render
raise ValueError, from keyOrder.index inside the template context
computation of the render tail.  Neither exception is the
NoFileStorageException named by the claim. -/
theorem c7_counterexample :
    (build_init_kwargs entriesPlain false).isOk = true
  ∧ get_full wizAllFalse reqNat stEmpty = Except.error PyExn.indexError
  ∧ (build_init_kwargs entriesStale false).isOk = true
  ∧ post_full wizStale reqPost stCurA = Except.error PyExn.valueError
  ∧ PyExn.indexError ≠ PyExn.noFileStorage
  ∧ PyExn.valueError ≠ PyExn.noFileStorage := by
  decide

/-- C7 amended: at construction time the only raised exceptions are the
assertion on an empty form list and the configuration error, which occurs
for a non-empty form list exactly when some built form class declares a
file field while no file storage is configured; a validation failure on
POST whose determined current step is an active step is handled, render
tail included, by re-rendering the offending step with no exception.
The original universal claim fails at request time: when every condition
evaluates false the GET handler raises IndexError, and when the stored
current step is declared but inactive the validation-failure re-render
raises ValueError from the template context (see the counterexample). -/
theorem c7_error_surface :
    (∀ (entries : List (FormListEntry Data)) (hasFS : Bool),
       entries ≠ [] →
       (build_init_kwargs entries hasFS = Except.error PyExn.noFileStorage
          ↔ hasFS = false
            ∧ ∃ p ∈ build_form_list entries, p.2.baseFieldsHasFile = true)
       ∧ ((¬ (hasFS = false
              ∧ ∃ p ∈ build_form_list entries, p.2.baseFieldsHasFile = true)) →
            build_init_kwargs entries hasFS
              = Except.ok (build_form_list entries)))
  ∧ (∀ (wz : FormWizard Data) (req : Request Data) (st : StorageState Data)
       (cur : String),
       req.postPrevStep = none → req.extraContext = none →
       determine_step wz req st = Except.ok cur →
       (alist_get wz.formList cur).isSome →
       cur ∈ activeKeys wz req st →
       stepValid wz cur (some req.postData) (some req.postFiles) = false →
       post_full wz req st =
         Except.ok
           (Response.render ⟨cur, some req.postData, some req.postFiles⟩, st)) := by
  constructor
  · intro entries hasFS hne
    have hlen : entries.length > 0 := List.length_pos.mpr hne
    have hcond :
        (((build_form_list entries).any fun p => p.2.baseFieldsHasFile) && !hasFS)
            = true
          ↔ hasFS = false
            ∧ ∃ p ∈ build_form_list entries, p.2.baseFieldsHasFile = true := by
      rw [Bool.and_eq_true, List.any_eq_true, Bool.not_eq_true']
      tauto
    constructor
    · constructor
      · intro h
        rw [build_init_kwargs_eq entries hasFS hlen, file_check_eq] at h
        by_cases hb :
            (((build_form_list entries).any fun p => p.2.baseFieldsHasFile)
              && !hasFS) = true
        · exact hcond.mp hb
        · rw [if_neg hb] at h
          simp at h
      · intro hex
        rw [build_init_kwargs_eq entries hasFS hlen, file_check_eq,
          if_pos (hcond.mpr hex)]
    · intro hnot
      rw [build_init_kwargs_eq entries hasFS hlen, file_check_eq,
        if_neg (fun hb => hnot (hcond.mp hb))]
  · intro wz req st cur hprev hctx hdet hcls hmem hinv
    have hpost : post wz req st =
        Except.ok
          (Response.render ⟨cur, some req.postData, some req.postFiles⟩, st) := by
      rw [post_eq_submission wz req st hprev hctx]
      exact post_submission_invalid wz req st cur hdet hcls hinv
    have hren : render wz req st ⟨cur, some req.postData, some req.postFiles⟩
        = Except.ok
            (Response.render ⟨cur, some req.postData, some req.postFiles⟩) :=
      render_ok wz req st _ cur hdet hmem
    unfold post_full
    rw [hpost]
    exact with_render_tail_ok_render wz req st _ hren

theorem c7_witness :
    build_init_kwargs entriesPlain true = Except.ok (build_form_list entriesPlain)
  ∧ post_full wizNoVal reqPost stEmpty =
      Except.ok (Response.render ⟨"0", some 7, some 8⟩, stEmpty) :=
  ⟨((@c7_error_surface Nat).1 entriesPlain true (List.cons_ne_nil _ _)).2 (by simp),
   (@c7_error_surface Nat).2 wizNoVal reqPost stEmpty "0" rfl rfl (by decide)
     (by decide) (by decide) (by decide)⟩

/-- C6: on POST submission (no form_prev_step posted, no extra context),
when the form of the current step validates, post stores the normalized
data and files under the current step and then invokes render_done on the
updated storage when the current step equals the last active step, and
otherwise advances the current step to the next active step and renders
it; when the form does not validate, the same step is re-rendered with the
storage unchanged.  The hypotheses pin down the current step re-computed
by determine_step at each of the storage states the source evaluates it
on. -/
theorem c6_post_flow (wz : FormWizard Data) (req : Request Data)
    (st : StorageState Data) (cur : String) (st2 : StorageState Data)
    (hprev : req.postPrevStep = none)
    (hctx : req.extraContext = none)
    (hnd : (wz.formList.map Prod.fst).Nodup)
    (hdet : determine_step wz req st = Except.ok cur)
    (hcls : (alist_get wz.formList cur).isSome)
    (hst2 : st2 = setStepFiles (setStepData st cur req.postData) cur req.postFiles)
    (hdet1 : determine_step wz req (setStepData st cur req.postData) = Except.ok cur)
    (hdet2 : determine_step wz req st2 = Except.ok cur) :
    (stepValid wz cur (some req.postData) (some req.postFiles) = false →
       post wz req st =
         Except.ok
           (Response.render ⟨cur, some req.postData, some req.postFiles⟩, st))
  ∧ (stepValid wz cur (some req.postData) (some req.postFiles) = true →
       getStepData st2 cur = some req.postData
       ∧ getStepFiles st2 cur = some req.postFiles
       ∧ ∀ last, get_last_step wz req st2 = Except.ok last →
           ((cur = last →
               post wz req st =
                 Except.ok (render_done wz req st2
                   ⟨cur, some req.postData, some req.postFiles⟩))
          ∧ (cur ≠ last → cur ∈ activeKeys wz req st2 →
               ∃ n, get_next_step wz req st2 none = Except.ok (some n)
                 ∧ post wz req st =
                     Except.ok (Response.render
                         ⟨n, getStepData st2 n, getStepFiles st2 n⟩,
                       setCurrentStep st2 (some n))))) := by
  subst hst2
  constructor
  · intro hinv
    rw [post_eq_submission wz req st hprev hctx]
    exact post_submission_invalid wz req st cur hdet hcls hinv
  · intro hval
    refine ⟨?_, ?_, ?_⟩
    · show alist_get (sdInsert st.stepData cur req.postData) cur = some req.postData
      exact alist_get_sdInsert_self _ _ _
    · show alist_get (sdInsert st.stepFiles cur req.postFiles) cur = some req.postFiles
      exact alist_get_sdInsert_self _ _ _
    · intro last hlast
      have hchain : post wz req st
          = post_advance wz req
              (setStepFiles (setStepData st cur req.postData) cur req.postFiles)
              ⟨cur, some req.postData, some req.postFiles⟩ := by
        rw [post_eq_submission wz req st hprev hctx,
          post_submission_valid wz req st cur hdet hcls hval,
          post_store_data_eq wz req st cur _ hdet,
          post_store_files_eq wz req _ cur _ hdet1]
      constructor
      · intro hcl
        rw [hchain, post_advance_eq wz req _ cur last _ hdet2 hlast, if_pos hcl]
      · intro hne hmem
        obtain ⟨n, hnext, hnmem⟩ :=
          get_next_step_none_of_mem wz req _ cur last hdet2 hmem hlast hne
        have hnmem2 : n ∈ wz.formList.map Prod.fst :=
          ((mem_activeKeys wz req _ hnd n).mp hnmem).1
        obtain ⟨c, hc⟩ :=
          Option.isSome_iff_exists.mp (alist_get_isSome_of_mem _ _ hnmem2)
        refine ⟨n, hnext, ?_⟩
        rw [hchain, post_advance_eq wz req _ cur last _ hdet2 hlast, if_neg hne,
          render_next_step_eq wz req _ _ n c hnext hc]

theorem c6_witness :
    ∃ n, get_next_step wizTwo reqPost stStored none = Except.ok (some n)
      ∧ post wizTwo reqPost stCur0 =
          Except.ok (Response.render
              ⟨n, getStepData stStored n, getStepFiles stStored n⟩,
            setCurrentStep stStored (some n)) :=
  ((((c6_post_flow wizTwo reqPost stCur0 "0" stStored rfl rfl (by decide)
        (by decide) (by decide) rfl (by decide) (by decide)).2
      (by decide)).2.2 "1" (by decide)).2 (by decide) (by decide))

end Formwizard
